import Mathlib

/-!
# qa-cafe: verification of the staged-artifact pipeline

A shallow embedding of the qa-cafe desktop application pipeline core:
the JSON value model used by `JSON.stringify` / `JSON.parse`, the
per-project keyed local-storage layer, the response-parsing steps of
`analyzeProject` (src/core/tools/testMapper.ts) and of the Test Case
Generator page (src/renderer/pages/TestCaseGenerator.tsx), the
Regression Runner load effect and `buildInitialItems`
(src/renderer/pages/RegressionRunner.tsx), the Coverage Tracker
`updateStatus`, and the two model-gateway response extractors
(electron/main.ts `call-claude` handler and the claude.ts `analyzeCode`
helper).

Embedding conventions:
* JavaScript exceptions are explicit: a fallible step returns `Option`
  or `Except`, and an uncaught throw is an `Except.error`.
* JSON numbers are modelled as integers. The claims under study never
  involve fractional values, and IEEE-754 doubles are outside the
  embedding; `JSON.stringify` of an integral number prints its decimal
  form, which is what the renderer below produces.
* JS objects parsed from JSON are member lists in source order. The
  claims under study never involve duplicate keys, so the last-wins
  collapse performed by the JS engine is irrelevant here; lookups
  nevertheless take the last matching member, as the engine would.
* `localStorage` is a total map `String → Option String`; `getItem`
  returns `none` for a missing key, and the JS truthiness test
  `if (data)` additionally rejects the empty string (`truthyStr`).
-/

namespace QaCafe

/-- A JSON value, as produced by `JSON.parse` and consumed by
`JSON.stringify` (numbers restricted to integers, see the header). -/
inductive Json where
  | null
  | bool (b : Bool)
  | num (n : Int)
  | str (s : String)
  | arr (items : List Json)
  | obj (members : List (String × Json))
deriving Repr

/-! ## Rendering: the `JSON.stringify` model -/

/-- The decimal digit character for `d` (used with `d < 10`). -/
def digCh (d : Nat) : Char := Char.ofNat (48 + d)

/-- Lower-case hexadecimal digit character for `d < 16`. -/
def hexCh (d : Nat) : Char := if d < 10 then Char.ofNat (48 + d) else Char.ofNat (87 + d)

/-- How `JSON.stringify` emits one character inside a string literal:
quote and backslash are escaped, the named control characters use their
short escapes, the remaining control characters use `\u00XX`, and
everything else is emitted literally. -/
def escSeq (c : Char) : List Char :=
  if c = '"' then ['\\', '"']
  else if c = '\\' then ['\\', '\\']
  else if c = '\x08' then ['\\', 'b']
  else if c = '\x0c' then ['\\', 'f']
  else if c = '\n' then ['\\', 'n']
  else if c = '\r' then ['\\', 'r']
  else if c = '\t' then ['\\', 't']
  else if c.toNat < 32 then
    ['\\', 'u', '0', '0', hexCh (c.toNat / 16), hexCh (c.toNat % 16)]
  else [c]

/-- A JSON string literal: quote, escaped body, quote. -/
def quoteChars (s : String) : List Char :=
  '"' :: (s.data.foldr (fun c acc => escSeq c ++ acc) ['"'])

/-- Decimal digits of `k`, most significant first, in front of `acc`. -/
def natCharsAux (k : Nat) (acc : List Char) : List Char :=
  if k < 10 then digCh (k % 10) :: acc
  else natCharsAux (k / 10) (digCh (k % 10) :: acc)
termination_by k
decreasing_by omega

/-- Decimal digit characters of a natural number. -/
def natChars (n : Nat) : List Char := natCharsAux n []

/-- Decimal characters of an integer: optional minus sign, then digits. -/
def intChars (i : Int) : List Char :=
  if i < 0 then '-' :: natChars i.natAbs else natChars i.natAbs

mutual
/-- `JSON.stringify` (compact form, no indentation), as characters. -/
def jsonChars : Json → List Char
  | .num n => intChars n
  | .str s => quoteChars s
  | .arr items => '[' :: (arrChars items ++ [']'])
  | .obj members => '{' :: (objChars members ++ ['}'])
  | .bool b => if b then ['t', 'r', 'u', 'e'] else ['f', 'a', 'l', 's', 'e']
  | .null => ['n', 'u', 'l', 'l']
/-- Comma-separated rendering of array elements. -/
def arrChars : List Json → List Char
  | [] => []
  | [x] => jsonChars x
  | x :: y :: rest => jsonChars x ++ ',' :: arrChars (y :: rest)
/-- Comma-separated rendering of object members. -/
def objChars : List (String × Json) → List Char
  | [] => []
  | [kv] => quoteChars kv.1 ++ ':' :: jsonChars kv.2
  | kv :: m :: rest => quoteChars kv.1 ++ ':' :: jsonChars kv.2 ++ ',' :: objChars (m :: rest)
end

/-- `JSON.stringify` on the value model. -/
def jsonStringify (j : Json) : String := ⟨jsonChars j⟩

/-! ## Parsing: the `JSON.parse` model -/

/-- JSON insignificant whitespace. -/
def jsWs (c : Char) : Bool := c = ' ' || c = '\t' || c = '\n' || c = '\r'

/-- Skip leading whitespace. -/
def chompWs (cs : List Char) : List Char := cs.dropWhile jsWs

/-- ASCII decimal digit test. -/
def digit? (c : Char) : Bool := 48 ≤ c.toNat && c.toNat ≤ 57

/-- Split off the longest leading digit run. -/
def digitSpan : List Char → List Char × List Char
  | [] => ([], [])
  | c :: cs =>
    if digit? c then
      let p := digitSpan cs
      (c :: p.1, p.2)
    else ([], c :: cs)

/-- Value of a digit run, most significant first. -/
def digitsNat (ds : List Char) : Nat :=
  ds.foldl (fun a c => a * 10 + (c.toNat - 48)) 0

/-- Parse an integer literal: optional minus sign, then at least one
digit. Numbers are integers throughout the model (see the header);
fraction and exponent forms are outside it, and a leading-zero run is
tolerated where the JSON grammar rejects it — no claim under study
involves either shape. -/
def readNum : List Char → Option (Int × List Char)
  | '-' :: cs =>
    match digitSpan cs with
    | ([], _) => none
    | (ds, rest) => some (-(digitsNat ds : Int), rest)
  | cs =>
    match digitSpan cs with
    | ([], _) => none
    | (ds, rest) => some ((digitsNat ds : Int), rest)

/-- Value of one hexadecimal digit character. -/
def hexNum (c : Char) : Option Nat :=
  if digit? c then some (c.toNat - 48)
  else if 97 ≤ c.toNat && c.toNat ≤ 102 then some (c.toNat - 87)
  else if 65 ≤ c.toNat && c.toNat ≤ 70 then some (c.toNat - 55)
  else none

/-- Resolve one single-character escape. -/
def unesc (c : Char) : Option Char :=
  if c = '"' then some '"'
  else if c = '\\' then some '\\'
  else if c = '/' then some '/'
  else if c = 'b' then some '\x08'
  else if c = 'f' then some '\x0c'
  else if c = 'n' then some '\n'
  else if c = 'r' then some '\r'
  else if c = 't' then some '\t'
  else none

/-- Read a string body after the opening quote, unescaping as it goes.
`acc` holds the characters read so far, reversed. -/
def readStr (acc : List Char) : List Char → Option (String × List Char)
  | [] => none
  | '"' :: rest => some (⟨acc.reverse⟩, rest)
  | '\\' :: 'u' :: h1 :: h2 :: h3 :: h4 :: rest =>
    match hexNum h1, hexNum h2, hexNum h3, hexNum h4 with
    | some a, some b, some c, some d =>
      readStr (Char.ofNat (((a * 16 + b) * 16 + c) * 16 + d) :: acc) rest
    | _, _, _, _ => none
  | '\\' :: e :: rest =>
    match unesc e with
    | some c => readStr (c :: acc) rest
    | none => none
  | c :: rest => readStr (c :: acc) rest

mutual
/-- Read one JSON value. `fuel` only guarantees totality; `jsonParse`
supplies more fuel than any input can consume. -/
def readVal : Nat → List Char → Option (Json × List Char)
  | 0, _ => none
  | fuel + 1, cs =>
    match chompWs cs with
    | 'n' :: 'u' :: 'l' :: 'l' :: rest => some (.null, rest)
    | 't' :: 'r' :: 'u' :: 'e' :: rest => some (.bool true, rest)
    | 'f' :: 'a' :: 'l' :: 's' :: 'e' :: rest => some (.bool false, rest)
    | '"' :: rest =>
      match readStr [] rest with
      | some (s, rest2) => some (.str s, rest2)
      | none => none
    | '[' :: rest =>
      (match chompWs rest with
       | [] => none
       | c :: rest2 =>
         if c = ']' then some (.arr [], rest2)
         else
           match readElems fuel (c :: rest2) with
           | some (items, rest3) => some (.arr items, rest3)
           | none => none)
    | '{' :: rest =>
      (match chompWs rest with
       | [] => none
       | c :: rest2 =>
         if c = '}' then some (.obj [], rest2)
         else
           match readFields fuel (c :: rest2) with
           | some (ms, rest3) => some (.obj ms, rest3)
           | none => none)
    | cs2 =>
      match readNum cs2 with
      | some (n, rest) => some (.num n, rest)
      | none => none
/-- Read one-or-more comma-separated array elements and the closing bracket. -/
def readElems : Nat → List Char → Option (List Json × List Char)
  | 0, _ => none
  | fuel + 1, cs =>
    match readVal fuel cs with
    | none => none
    | some (v, rest) =>
      match chompWs rest with
      | ',' :: rest2 =>
        (match readElems fuel rest2 with
         | some (vs, rest3) => some (v :: vs, rest3)
         | none => none)
      | ']' :: rest2 => some ([v], rest2)
      | _ => none
/-- Read one-or-more comma-separated object members and the closing brace. -/
def readFields : Nat → List Char → Option (List (String × Json) × List Char)
  | 0, _ => none
  | fuel + 1, cs =>
    match chompWs cs with
    | '"' :: rest =>
      (match readStr [] rest with
       | none => none
       | some (k, rest2) =>
         match chompWs rest2 with
         | ':' :: rest3 =>
           (match readVal fuel rest3 with
            | none => none
            | some (v, rest4) =>
              match chompWs rest4 with
              | ',' :: rest5 =>
                (match readFields fuel rest5 with
                 | some (ms, rest6) => some ((k, v) :: ms, rest6)
                 | none => none)
              | '}' :: rest5 => some ([(k, v)], rest5)
              | _ => none)
         | _ => none)
    | _ => none
end

/-- `JSON.parse`: `some` on success, `none` where the engine would throw
a `SyntaxError`. -/
def jsonParse (s : String) : Option Json :=
  match readVal (s.data.length + 1) s.data with
  | some (j, rest) => if chompWs rest = [] then some j else none
  | none => none

/-! ## Round trip, numeric layer -/

theorem digCh_spec (d : Nat) (h : d < 10) :
    (digCh d).toNat = 48 + d ∧ digit? (digCh d) = true := by
  interval_cases d <;> exact ⟨by decide, by decide⟩

theorem natCharsAux_shift (k : Nat) : ∀ acc : List Char,
    natCharsAux k acc = natCharsAux k [] ++ acc := by
  induction k using Nat.strong_induction_on with
  | _ k ih =>
    intro acc
    conv_lhs => rw [natCharsAux]
    conv_rhs => rw [natCharsAux]
    by_cases hk : k < 10
    · simp [hk]
    · rw [if_neg hk, if_neg hk, ih (k / 10) (by omega) (digCh (k % 10) :: acc),
          ih (k / 10) (by omega) [digCh (k % 10)]]
      simp

theorem natChars_step (k : Nat) :
    natChars k = (if k < 10 then [] else natChars (k / 10)) ++ [digCh (k % 10)] := by
  rw [natChars, natCharsAux]
  by_cases hk : k < 10
  · simp [hk]
  · rw [if_neg hk, if_neg hk, natCharsAux_shift]
    rfl

theorem natChars_ne_nil (k : Nat) : natChars k ≠ [] := by
  rw [natChars_step]
  simp

theorem natChars_all_digits (k : Nat) : ∀ c ∈ natChars k, digit? c = true := by
  induction k using Nat.strong_induction_on with
  | _ k ih =>
    intro c hc
    rw [natChars_step] at hc
    rcases List.mem_append.mp hc with h | h
    · by_cases hk : k < 10
      · simp [hk] at h
      · exact ih (k / 10) (by omega) c (by simpa [hk] using h)
    · rw [List.mem_singleton] at h
      subst h
      exact (digCh_spec _ (Nat.mod_lt _ (by omega))).2

theorem digitsNat_natChars (k : Nat) : digitsNat (natChars k) = k := by
  induction k using Nat.strong_induction_on with
  | _ k ih =>
    rw [natChars_step]
    unfold digitsNat
    rw [List.foldl_append]
    by_cases hk : k < 10
    · simp only [if_pos hk, List.foldl_nil, List.foldl_cons]
      rw [(digCh_spec _ (Nat.mod_lt _ (by omega))).1]
      omega
    · simp only [if_neg hk, List.foldl_cons, List.foldl_nil]
      have := ih (k / 10) (by omega)
      unfold digitsNat at this
      rw [this, (digCh_spec _ (Nat.mod_lt _ (by omega))).1]
      omega

/-- A list that cannot continue a digit run: empty or headed by a non-digit. -/
def dsStop : List Char → Bool
  | [] => true
  | c :: _ => !digit? c

theorem digitSpan_stop {cs : List Char} (h : dsStop cs = true) :
    digitSpan cs = ([], cs) := by
  match cs with
  | [] => rfl
  | c :: t =>
    simp only [dsStop, Bool.not_eq_true'] at h
    simp [digitSpan, h]

theorem digitSpan_run (ds : List Char) (hds : ∀ c ∈ ds, digit? c = true) :
    ∀ rest : List Char, dsStop rest = true → digitSpan (ds ++ rest) = (ds, rest) := by
  induction ds with
  | nil => intro rest hrest; simpa using digitSpan_stop hrest
  | cons c t ih =>
    intro rest hrest
    have hc : digit? c = true := hds c (by simp)
    simp [digitSpan, hc, ih (fun x hx => hds x (by simp [hx])) rest hrest]

theorem digit_bounds {c : Char} (h : digit? c = true) :
    48 ≤ c.toNat ∧ c.toNat ≤ 57 := by
  unfold digit? at h
  rw [Bool.and_eq_true, decide_eq_true_eq, decide_eq_true_eq] at h
  exact h

theorem digit_ne_char {c : Char} (h : digit? c = true) {x : Char}
    (hx : x.toNat < 48 ∨ 57 < x.toNat) : c ≠ x := by
  obtain ⟨h1, h2⟩ := digit_bounds h
  intro e
  subst e
  omega

theorem digit_excludes {c : Char} (h : digit? c = true) :
    jsWs c = false ∧ c ≠ '-' ∧ c ≠ 'n' ∧ c ≠ 't' ∧ c ≠ 'f' ∧ c ≠ '"' ∧
      c ≠ '[' ∧ c ≠ '{' ∧ c ≠ ']' ∧ c ≠ '}' ∧ c ≠ ',' ∧ c ≠ ':' := by
  refine ⟨?_, digit_ne_char h (by decide), digit_ne_char h (by decide),
    digit_ne_char h (by decide), digit_ne_char h (by decide), digit_ne_char h (by decide),
    digit_ne_char h (by decide), digit_ne_char h (by decide), digit_ne_char h (by decide),
    digit_ne_char h (by decide), digit_ne_char h (by decide), digit_ne_char h (by decide)⟩
  simp only [jsWs, Bool.or_eq_false_iff, decide_eq_false_iff_not]
  exact ⟨⟨⟨digit_ne_char h (by decide), digit_ne_char h (by decide)⟩,
    digit_ne_char h (by decide)⟩, digit_ne_char h (by decide)⟩

theorem natChars_head (k : Nat) :
    ∃ c t, natChars k = c :: t ∧ digit? c = true := by
  match h : natChars k with
  | [] => exact absurd h (natChars_ne_nil k)
  | c :: t => exact ⟨c, t, rfl, natChars_all_digits k c (h ▸ List.mem_cons_self ..)⟩

theorem readNum_intChars (i : Int) (rest : List Char) (hrest : dsStop rest = true) :
    readNum (intChars i ++ rest) = some (i, rest) := by
  by_cases hi : i < 0
  · have harg : intChars i ++ rest = '-' :: (natChars i.natAbs ++ rest) := by
      simp [intChars, hi]
    rw [harg]
    show (match digitSpan (natChars i.natAbs ++ rest) with
          | ([], _) => none
          | (ds, r) => some (-(digitsNat ds : Int), r)) = some (i, rest)
    rw [digitSpan_run _ (natChars_all_digits _) _ hrest]
    obtain ⟨c, t, hct, -⟩ := natChars_head i.natAbs
    rw [hct]
    simp only [Option.some.injEq, Prod.mk.injEq, and_true]
    rw [← hct, digitsNat_natChars]
    omega
  · obtain ⟨c, t, hct, hc⟩ := natChars_head i.natAbs
    obtain ⟨-, hminus, -⟩ := digit_excludes hc
    have harg : intChars i ++ rest = c :: (t ++ rest) := by
      simp [intChars, hi, hct]
    rw [harg]
    have hread : readNum (c :: (t ++ rest))
        = (match digitSpan (c :: (t ++ rest)) with
           | ([], _) => none
           | (ds, r) => some ((digitsNat ds : Int), r)) := by
      rw [readNum.eq_def]
      simp [hminus]
    rw [hread]
    have hspan : digitSpan (c :: (t ++ rest)) = (c :: t, rest) := by
      have := digitSpan_run _ (natChars_all_digits i.natAbs) rest hrest
      rwa [hct, List.cons_append] at this
    rw [hspan]
    simp only [Option.some.injEq, Prod.mk.injEq, and_true]
    rw [← hct, digitsNat_natChars]
    omega

/-! ## Round trip, string layer -/

theorem hexNum_hexCh (d : Nat) (h : d < 16) : hexNum (hexCh d) = some d := by
  interval_cases d <;> decide

/-- Reading one rendered escape sequence recovers the escaped character. -/
theorem readStr_esc (c : Char) (acc rest : List Char) :
    readStr acc (escSeq c ++ rest) = readStr (c :: acc) rest := by
  by_cases h1 : c = '"'
  · subst h1; rfl
  by_cases h2 : c = '\\'
  · subst h2; rfl
  by_cases h3 : c = '\x08'
  · subst h3; rfl
  by_cases h4 : c = '\x0c'
  · subst h4; rfl
  by_cases h5 : c = '\n'
  · subst h5; rfl
  by_cases h6 : c = '\r'
  · subst h6; rfl
  by_cases h7 : c = '\t'
  · subst h7; rfl
  by_cases hlt : c.toNat < 32
  · have hhi := hexNum_hexCh (c.toNat / 16) (by omega)
    have hlo := hexNum_hexCh (c.toNat % 16) (Nat.mod_lt _ (by omega))
    have h0 : hexNum '0' = some 0 := by decide
    simp only [escSeq, if_neg h1, if_neg h2, if_neg h3, if_neg h4, if_neg h5, if_neg h6,
      if_neg h7, if_pos hlt, List.cons_append, List.nil_append]
    rw [readStr, h0, hhi, hlo]
    show readStr (Char.ofNat (((0 * 16 + 0) * 16 + c.toNat / 16) * 16 + c.toNat % 16) :: acc) rest
        = readStr (c :: acc) rest
    have harith : ((0 * 16 + 0) * 16 + c.toNat / 16) * 16 + c.toNat % 16 = c.toNat := by omega
    rw [harith, Char.ofNat_toNat]
  · simp only [escSeq, if_neg h1, if_neg h2, if_neg h3, if_neg h4, if_neg h5, if_neg h6,
      if_neg h7, if_neg hlt, List.cons_append, List.nil_append]
    rw [readStr.eq_def]
    simp [h1, h2]

/-- Reading a rendered string body stops exactly at the closing quote. -/
theorem readStr_body (cs : List Char) : ∀ (acc rest : List Char),
    readStr acc (cs.foldr (fun c a => escSeq c ++ a) ['"'] ++ rest)
      = some (⟨acc.reverse ++ cs⟩, rest) := by
  induction cs with
  | nil => intro acc rest; simp [readStr]
  | cons c t ih =>
    intro acc rest
    rw [List.foldr_cons, List.append_assoc, readStr_esc, ih]
    simp

/-- The string codec round trip, entered after the opening quote. -/
theorem readStr_quote (s : String) (rest : List Char) :
    readStr [] (s.data.foldr (fun c a => escSeq c ++ a) ['"'] ++ rest) = some (s, rest) := by
  rw [readStr_body]
  rfl

/-! ## Round trip, structural layer -/

theorem chompWs_nows {c : Char} (h : jsWs c = false) (t : List Char) :
    chompWs (c :: t) = c :: t := by
  simp [chompWs, List.dropWhile_cons, h]

/-- Every rendered value begins with a non-whitespace character that is
neither a closing bracket, a closing brace, nor a comma. -/
theorem jsonChars_head (j : Json) :
    ∃ c t, jsonChars j = c :: t ∧ jsWs c = false ∧ c ≠ ']' ∧ c ≠ '}' ∧ c ≠ ',' := by
  cases j with
  | null => exact ⟨'n', _, rfl, by decide, by decide, by decide, by decide⟩
  | bool b =>
    cases b with
    | true => exact ⟨'t', _, rfl, by decide, by decide, by decide, by decide⟩
    | false => exact ⟨'f', _, rfl, by decide, by decide, by decide, by decide⟩
  | str s => exact ⟨'"', _, rfl, by decide, by decide, by decide, by decide⟩
  | arr items => exact ⟨'[', _, rfl, by decide, by decide, by decide, by decide⟩
  | obj members => exact ⟨'{', _, rfl, by decide, by decide, by decide, by decide⟩
  | num n =>
    by_cases hn : n < 0
    · refine ⟨'-', natChars n.natAbs, ?_, by decide, by decide, by decide, by decide⟩
      simp [jsonChars, intChars, hn]
    · obtain ⟨c, t, hct, hc⟩ := natChars_head n.natAbs
      obtain ⟨hws, -, -, -, -, -, -, -, hrb, hcb, hcm, -⟩ := digit_excludes hc
      refine ⟨c, t, ?_, hws, hrb, hcb, hcm⟩
      simp [jsonChars, intChars, hn, hct]

theorem jsonChars_ne_nil (j : Json) : jsonChars j ≠ [] := by
  obtain ⟨c, t, hct, -⟩ := jsonChars_head j
  simp [hct]

theorem chompWs_jsonChars (j : Json) (x : List Char) :
    chompWs (jsonChars j ++ x) = jsonChars j ++ x := by
  obtain ⟨c, t, hct, hws, -⟩ := jsonChars_head j
  rw [hct, List.cons_append]
  exact chompWs_nows hws _

/-- The element list of a nonempty array starts with its first value. -/
theorem arrChars_decomp (x : Json) (xs : List Json) :
    ∃ u, arrChars (x :: xs) = jsonChars x ++ u := by
  cases xs with
  | nil => exact ⟨[], by simp [arrChars]⟩
  | cons y ys => exact ⟨',' :: arrChars (y :: ys), rfl⟩

/-- The member list of a nonempty object starts with the first key quote. -/
theorem objChars_decomp (kv : String × Json) (ms : List (String × Json)) :
    ∃ u, objChars (kv :: ms) = '"' :: u := by
  cases ms with
  | nil =>
    exact ⟨(kv.1.data.foldr (fun c a => escSeq c ++ a) ['"']) ++ (':' :: jsonChars kv.2),
      by simp [objChars, quoteChars]⟩
  | cons m rest =>
    exact ⟨(kv.1.data.foldr (fun c a => escSeq c ++ a) ['"'])
        ++ (':' :: jsonChars kv.2 ++ ',' :: objChars (m :: rest)),
      by simp [objChars, quoteChars]⟩

/-- Unfolding `readVal` at successor fuel (definitional). -/
theorem readVal_succ (fuel : Nat) (cs : List Char) :
    readVal (fuel + 1) cs
      = (match chompWs cs with
         | 'n' :: 'u' :: 'l' :: 'l' :: rest => some (.null, rest)
         | 't' :: 'r' :: 'u' :: 'e' :: rest => some (.bool true, rest)
         | 'f' :: 'a' :: 'l' :: 's' :: 'e' :: rest => some (.bool false, rest)
         | '"' :: rest =>
           match readStr [] rest with
           | some (s, rest2) => some (.str s, rest2)
           | none => none
         | '[' :: rest =>
           (match chompWs rest with
            | [] => none
            | c :: rest2 =>
              if c = ']' then some (.arr [], rest2)
              else
                match readElems fuel (c :: rest2) with
                | some (items, rest3) => some (.arr items, rest3)
                | none => none)
         | '{' :: rest =>
           (match chompWs rest with
            | [] => none
            | c :: rest2 =>
              if c = '}' then some (.obj [], rest2)
              else
                match readFields fuel (c :: rest2) with
                | some (ms, rest3) => some (.obj ms, rest3)
                | none => none)
         | cs2 =>
           match readNum cs2 with
           | some (n, rest) => some (.num n, rest)
           | none => none) := rfl

/-- A value whose input starts with a sign or digit goes through `readNum`. -/
theorem readVal_to_readNum (fuel : Nat) (c : Char) (t : List Char)
    (hws : jsWs c = false) (hn : c ≠ 'n') (ht : c ≠ 't') (hf : c ≠ 'f')
    (hq : c ≠ '"') (hlb : c ≠ '[') (hob : c ≠ '{') :
    readVal (fuel + 1) (c :: t)
      = (match readNum (c :: t) with
         | some (n, rest) => some (.num n, rest)
         | none => none) := by
  rw [readVal_succ, chompWs_nows hws]
  simp [hn, ht, hf, hq, hlb, hob]

mutual
/-- Reading a rendered value recovers it, for any remainder that cannot
extend a number literal. -/
theorem rtVal : ∀ (j : Json) (fuel : Nat) (rest : List Char),
    (jsonChars j).length < fuel → dsStop rest = true →
    readVal fuel (jsonChars j ++ rest) = some (j, rest)
  | .null, 0, _, hf, _ => absurd hf (Nat.not_lt_zero _)
  | .null, fuel + 1, rest, _, _ => rfl
  | .bool b, 0, _, hf, _ => absurd hf (Nat.not_lt_zero _)
  | .bool b, fuel + 1, rest, _, _ => by cases b <;> rfl
  | .num n, 0, _, hf, _ => absurd hf (Nat.not_lt_zero _)
  | .num n, fuel + 1, rest, hf, hr => by
    have hnum : readNum (intChars n ++ rest) = some (n, rest) := readNum_intChars n rest hr
    by_cases hn : n < 0
    · have harg : jsonChars (.num n) ++ rest = '-' :: (natChars n.natAbs ++ rest) := by
        simp [jsonChars, intChars, hn]
      rw [harg, readVal_to_readNum fuel '-' _ (by decide) (by decide) (by decide) (by decide)
            (by decide) (by decide) (by decide)]
      have hback : '-' :: (natChars n.natAbs ++ rest) = intChars n ++ rest := by
        simp [intChars, hn]
      rw [hback, hnum]
    · obtain ⟨c, t, hct, hc⟩ := natChars_head n.natAbs
      obtain ⟨hws, -, hn2, ht2, hf2, hq2, hlb, hob, -⟩ := digit_excludes hc
      have harg : jsonChars (.num n) ++ rest = c :: (t ++ rest) := by
        simp [jsonChars, intChars, hn, hct]
      rw [harg, readVal_to_readNum fuel c _ hws hn2 ht2 hf2 hq2 hlb hob]
      have hback : c :: (t ++ rest) = intChars n ++ rest := by
        simp [intChars, hn, hct]
      rw [hback, hnum]
  | .str s, 0, _, hf, _ => absurd hf (Nat.not_lt_zero _)
  | .str s, fuel + 1, rest, _, _ => by
    have harg : jsonChars (.str s) ++ rest
        = '"' :: ((s.data.foldr (fun c a => escSeq c ++ a) ['"']) ++ rest) := by
      simp [jsonChars, quoteChars]
    rw [harg]
    show (match readStr [] ((s.data.foldr (fun c a => escSeq c ++ a) ['"']) ++ rest) with
          | some (s2, rest2) => some (Json.str s2, rest2)
          | none => none) = some (Json.str s, rest)
    rw [readStr_quote]
  | .arr [], 0, _, hf, _ => absurd hf (Nat.not_lt_zero _)
  | .arr [], fuel + 1, rest, _, _ => rfl
  | .arr (x :: xs), 0, _, hf, _ => absurd hf (Nat.not_lt_zero _)
  | .arr (x :: xs), fuel + 1, rest, hf, _ => by
    have hlen : (arrChars (x :: xs)).length + 1 < fuel := by
      simp only [jsonChars, List.length_cons, List.length_append, List.length_singleton] at hf
      omega
    have key := rtElems x xs fuel rest hlen
    have harg : jsonChars (.arr (x :: xs)) ++ rest
        = '[' :: (arrChars (x :: xs) ++ (']' :: rest)) := by
      simp [jsonChars]
    rw [harg]
    have step : readVal (fuel + 1) ('[' :: (arrChars (x :: xs) ++ (']' :: rest)))
        = (match chompWs (arrChars (x :: xs) ++ (']' :: rest)) with
           | [] => none
           | c :: rest2 =>
             if c = ']' then some (Json.arr [], rest2)
             else
               match readElems fuel (c :: rest2) with
               | some (items, rest3) => some (Json.arr items, rest3)
               | none => none) := rfl
    obtain ⟨u, hu⟩ := arrChars_decomp x xs
    obtain ⟨c, t, hct, hws, hnb, -⟩ := jsonChars_head x
    have hshape : arrChars (x :: xs) ++ (']' :: rest) = c :: (t ++ (u ++ (']' :: rest))) := by
      rw [hu, hct]
      simp
    rw [step, hshape, chompWs_nows hws]
    show (if c = ']' then some (Json.arr [], t ++ (u ++ (']' :: rest)))
          else
            match readElems fuel (c :: (t ++ (u ++ (']' :: rest)))) with
            | some (items, rest3) => some (Json.arr items, rest3)
            | none => none) = some (Json.arr (x :: xs), rest)
    rw [if_neg hnb, ← hshape, key]
  | .obj [], 0, _, hf, _ => absurd hf (Nat.not_lt_zero _)
  | .obj [], fuel + 1, rest, _, _ => rfl
  | .obj (kv :: ms), 0, _, hf, _ => absurd hf (Nat.not_lt_zero _)
  | .obj (kv :: ms), fuel + 1, rest, hf, _ => by
    have hlen : (objChars (kv :: ms)).length + 1 < fuel := by
      simp only [jsonChars, List.length_cons, List.length_append, List.length_singleton] at hf
      omega
    have key := rtFields kv ms fuel rest hlen
    have harg : jsonChars (.obj (kv :: ms)) ++ rest
        = '{' :: (objChars (kv :: ms) ++ ('}' :: rest)) := by
      simp [jsonChars]
    rw [harg]
    have step : readVal (fuel + 1) ('{' :: (objChars (kv :: ms) ++ ('}' :: rest)))
        = (match chompWs (objChars (kv :: ms) ++ ('}' :: rest)) with
           | [] => none
           | c :: rest2 =>
             if c = '}' then some (Json.obj [], rest2)
             else
               match readFields fuel (c :: rest2) with
               | some (ms2, rest3) => some (Json.obj ms2, rest3)
               | none => none) := rfl
    obtain ⟨u, hu⟩ := objChars_decomp kv ms
    have hshape : objChars (kv :: ms) ++ ('}' :: rest) = '"' :: (u ++ ('}' :: rest)) := by
      rw [hu]
      simp
    rw [step, hshape, chompWs_nows (by decide)]
    show (if '"' = '}' then some (Json.obj [], u ++ ('}' :: rest))
          else
            match readFields fuel ('"' :: (u ++ ('}' :: rest))) with
            | some (ms2, rest3) => some (Json.obj ms2, rest3)
            | none => none) = some (Json.obj (kv :: ms), rest)
    rw [if_neg (by decide), ← hshape, key]
termination_by j _ _ _ _ => sizeOf j

/-- Reading rendered array elements recovers them up to the closing bracket. -/
theorem rtElems : ∀ (x : Json) (xs : List Json) (fuel : Nat) (rest : List Char),
    (arrChars (x :: xs)).length + 1 < fuel →
    readElems fuel (arrChars (x :: xs) ++ (']' :: rest)) = some (x :: xs, rest)
  | x, [], 0, _, hf => absurd hf (by omega)
  | x, [], fuel + 1, rest, hf => by
    have hv := rtVal x fuel (']' :: rest)
      (by simp only [arrChars] at hf; omega) rfl
    have harg : arrChars [x] ++ (']' :: rest) = jsonChars x ++ (']' :: rest) := by
      simp [arrChars]
    rw [harg]
    show (match readVal fuel (jsonChars x ++ (']' :: rest)) with
          | none => none
          | some (v, rest2) =>
            match chompWs rest2 with
            | ',' :: rest3 =>
              (match readElems fuel rest3 with
               | some (vs, rest4) => some (v :: vs, rest4)
               | none => none)
            | ']' :: rest3 => some ([v], rest3)
            | _ => none) = some ([x], rest)
    rw [hv]
    rfl
  | x, y :: ys, 0, _, hf => absurd hf (by omega)
  | x, y :: ys, fuel + 1, rest, hf => by
    have hx1 : 1 ≤ (jsonChars x).length := by
      obtain ⟨c, t, hct, -⟩ := jsonChars_head x
      simp [hct]
    have hflat : (jsonChars x).length + 1 + (arrChars (y :: ys)).length + 1 < fuel + 1 := by
      simp only [arrChars, List.length_append, List.length_cons] at hf
      omega
    have hv := rtVal x fuel (',' :: (arrChars (y :: ys) ++ (']' :: rest)))
      (by omega) rfl
    have key := rtElems y ys fuel rest (by omega)
    have harg : arrChars (x :: y :: ys) ++ (']' :: rest)
        = jsonChars x ++ (',' :: (arrChars (y :: ys) ++ (']' :: rest))) := by
      simp [arrChars]
    rw [harg]
    show (match readVal fuel (jsonChars x ++ (',' :: (arrChars (y :: ys) ++ (']' :: rest)))) with
          | none => none
          | some (v, rest2) =>
            match chompWs rest2 with
            | ',' :: rest3 =>
              (match readElems fuel rest3 with
               | some (vs, rest4) => some (v :: vs, rest4)
               | none => none)
            | ']' :: rest3 => some ([v], rest3)
            | _ => none) = some (x :: y :: ys, rest)
    rw [hv]
    show (match chompWs (',' :: (arrChars (y :: ys) ++ (']' :: rest))) with
          | ',' :: rest3 =>
            (match readElems fuel rest3 with
             | some (vs, rest4) => some (x :: vs, rest4)
             | none => none)
          | ']' :: rest3 => some ([x], rest3)
          | _ => none) = some (x :: y :: ys, rest)
    rw [chompWs_nows (by decide)]
    show (match readElems fuel (arrChars (y :: ys) ++ (']' :: rest)) with
          | some (vs, rest4) => some (x :: vs, rest4)
          | none => none) = some (x :: y :: ys, rest)
    rw [key]
termination_by x xs _ _ _ => sizeOf x + sizeOf xs

/-- Reading rendered object members recovers them up to the closing brace. -/
theorem rtFields : ∀ (kv : String × Json) (ms : List (String × Json)) (fuel : Nat)
    (rest : List Char),
    (objChars (kv :: ms)).length + 1 < fuel →
    readFields fuel (objChars (kv :: ms) ++ ('}' :: rest)) = some (kv :: ms, rest)
  | kv, [], 0, _, hf => absurd hf (by omega)
  | (k, v), [], fuel + 1, rest, hf => by
    have hv := rtVal v fuel ('}' :: rest)
      (by simp only [objChars, quoteChars, List.length_append, List.length_cons] at hf; omega)
      rfl
    have harg : objChars [(k, v)] ++ ('}' :: rest)
        = '"' :: ((k.data.foldr (fun c a => escSeq c ++ a) ['"'])
            ++ (':' :: (jsonChars v ++ ('}' :: rest)))) := by
      simp [objChars, quoteChars]
    rw [harg]
    show (match readStr [] ((k.data.foldr (fun c a => escSeq c ++ a) ['"'])
            ++ (':' :: (jsonChars v ++ ('}' :: rest)))) with
          | none => none
          | some (k2, rest2) =>
            match chompWs rest2 with
            | ':' :: rest3 =>
              (match readVal fuel rest3 with
               | none => none
               | some (v2, rest4) =>
                 match chompWs rest4 with
                 | ',' :: rest5 =>
                   (match readFields fuel rest5 with
                    | some (ms2, rest6) => some ((k2, v2) :: ms2, rest6)
                    | none => none)
                 | '}' :: rest5 => some ([(k2, v2)], rest5)
                 | _ => none)
            | _ => none) = some ([(k, v)], rest)
    rw [readStr_quote]
    show (match chompWs (':' :: (jsonChars v ++ ('}' :: rest))) with
          | ':' :: rest3 =>
            (match readVal fuel rest3 with
             | none => none
             | some (v2, rest4) =>
               match chompWs rest4 with
               | ',' :: rest5 =>
                 (match readFields fuel rest5 with
                  | some (ms2, rest6) => some ((k, v2) :: ms2, rest6)
                  | none => none)
               | '}' :: rest5 => some ([(k, v2)], rest5)
               | _ => none)
          | _ => none) = some ([(k, v)], rest)
    rw [chompWs_nows (by decide)]
    show (match readVal fuel (jsonChars v ++ ('}' :: rest)) with
          | none => none
          | some (v2, rest4) =>
            match chompWs rest4 with
            | ',' :: rest5 =>
              (match readFields fuel rest5 with
               | some (ms2, rest6) => some ((k, v2) :: ms2, rest6)
               | none => none)
            | '}' :: rest5 => some ([(k, v2)], rest5)
            | _ => none) = some ([(k, v)], rest)
    rw [hv]
    rfl
  | kv, m :: ms, 0, _, hf => absurd hf (by omega)
  | (k, v), m :: ms, fuel + 1, rest, hf => by
    have hv1 : 1 ≤ (jsonChars v).length := by
      obtain ⟨c, t, hct, -⟩ := jsonChars_head v
      simp [hct]
    have hsplit : (objChars ((k, v) :: m :: ms)).length
        = (quoteChars k).length + (jsonChars v).length + (objChars (m :: ms)).length + 2 := by
      simp only [objChars, List.length_append, List.length_cons]
      omega
    have hflat : (quoteChars k).length + (jsonChars v).length
        + (objChars (m :: ms)).length + 3 < fuel + 1 := by
      rw [hsplit] at hf
      omega
    have hqk : 1 ≤ (quoteChars k).length := by
      simp only [quoteChars, List.length_cons]
      omega
    have hv := rtVal v fuel (',' :: (objChars (m :: ms) ++ ('}' :: rest)))
      (by omega) rfl
    have key := rtFields m ms fuel rest (by omega)
    have harg : objChars ((k, v) :: m :: ms) ++ ('}' :: rest)
        = '"' :: ((k.data.foldr (fun c a => escSeq c ++ a) ['"'])
            ++ (':' :: (jsonChars v ++ (',' :: (objChars (m :: ms) ++ ('}' :: rest)))))) := by
      simp [objChars, quoteChars]
    rw [harg]
    show (match readStr [] ((k.data.foldr (fun c a => escSeq c ++ a) ['"'])
            ++ (':' :: (jsonChars v ++ (',' :: (objChars (m :: ms) ++ ('}' :: rest)))))) with
          | none => none
          | some (k2, rest2) =>
            match chompWs rest2 with
            | ':' :: rest3 =>
              (match readVal fuel rest3 with
               | none => none
               | some (v2, rest4) =>
                 match chompWs rest4 with
                 | ',' :: rest5 =>
                   (match readFields fuel rest5 with
                    | some (ms2, rest6) => some ((k2, v2) :: ms2, rest6)
                    | none => none)
                 | '}' :: rest5 => some ([(k2, v2)], rest5)
                 | _ => none)
            | _ => none) = some ((k, v) :: m :: ms, rest)
    rw [readStr_quote]
    show (match chompWs (':' :: (jsonChars v ++ (',' :: (objChars (m :: ms) ++ ('}' :: rest))))) with
          | ':' :: rest3 =>
            (match readVal fuel rest3 with
             | none => none
             | some (v2, rest4) =>
               match chompWs rest4 with
               | ',' :: rest5 =>
                 (match readFields fuel rest5 with
                  | some (ms2, rest6) => some ((k, v2) :: ms2, rest6)
                  | none => none)
               | '}' :: rest5 => some ([(k, v2)], rest5)
               | _ => none)
          | _ => none) = some ((k, v) :: m :: ms, rest)
    rw [chompWs_nows (by decide)]
    show (match readVal fuel (jsonChars v ++ (',' :: (objChars (m :: ms) ++ ('}' :: rest)))) with
          | none => none
          | some (v2, rest4) =>
            match chompWs rest4 with
            | ',' :: rest5 =>
              (match readFields fuel rest5 with
               | some (ms2, rest6) => some ((k, v2) :: ms2, rest6)
               | none => none)
            | '}' :: rest5 => some ([(k, v2)], rest5)
            | _ => none) = some ((k, v) :: m :: ms, rest)
    rw [hv]
    show (match chompWs (',' :: (objChars (m :: ms) ++ ('}' :: rest))) with
          | ',' :: rest5 =>
            (match readFields fuel rest5 with
             | some (ms2, rest6) => some ((k, v) :: ms2, rest6)
             | none => none)
          | '}' :: rest5 => some ([(k, v)], rest5)
          | _ => none) = some ((k, v) :: m :: ms, rest)
    rw [chompWs_nows (by decide)]
    show (match readFields fuel (objChars (m :: ms) ++ ('}' :: rest)) with
          | some (ms2, rest6) => some ((k, v) :: ms2, rest6)
          | none => none) = some ((k, v) :: m :: ms, rest)
    rw [key]
termination_by kv ms _ _ _ => sizeOf kv + sizeOf ms
end

/-- The codec round trip: `JSON.parse` inverts `JSON.stringify` on every
value of the model. -/
theorem jsonParse_stringify (j : Json) : jsonParse (jsonStringify j) = some j := by
  have h := rtVal j ((jsonChars j).length + 1) [] (by omega) rfl
  rw [List.append_nil] at h
  show (match readVal ((jsonChars j).length + 1) (jsonChars j) with
        | some (j2, rest) => if chompWs rest = [] then some j2 else none
        | none => none) = some j
  rw [h]
  rfl

/-! ## The key-value project store (`localStorage`) -/

/-- `localStorage`: key to stored string, `none` when absent. -/
abbrev Store := String → Option String

/-- `localStorage.setItem`. -/
def storeSet (st : Store) (k v : String) : Store :=
  fun k2 => if k2 = k then some v else st k2

/-- `localStorage.removeItem`. -/
def storeRemove (st : Store) (k : String) : Store :=
  fun k2 => if k2 = k then none else st k2

/-- A store with nothing in it. -/
def emptyStore : Store := fun _ => none

/-- The JS string-truthiness guard `if (data)` applied to a `getItem`
result: absent and empty string are both falsy. -/
def truthyStr : Option String → Option String
  | some s => if s = "" then none else some s
  | none => none

/-- Write a JSON value through `JSON.stringify` (the `setItem` idiom used
by every stage page). -/
def cacheSet (st : Store) (k : String) (v : Json) : Store :=
  storeSet st k (jsonStringify v)

/-- Read a JSON value back through `JSON.parse` (the guarded `getItem`
idiom used by every stage page). -/
def cacheGet (st : Store) (k : String) : Option Json :=
  (st k).bind jsonParse

/-! ## The persisted key namespace

Key builders, copied from the source pages. The first seven are
project-scoped; the last three are global constants, written and read
without any project qualifier (QAAssistant, src/unnamed/part_002). -/

/-- TestMapper.tsx `getCacheKey`. -/
def testMapperKey (project : String) : String := "qa-cafe-testmapper-" ++ project

/-- TestCaseGenerator.tsx / RegressionRunner.tsx `getTestPlanKey`. -/
def testPlanKey (project : String) : String := "qa-cafe-testplan-" ++ project

/-- CoverageTracker / RegressionRunner `getCoverageKey`. -/
def coverageKey (project : String) : String := "qa-cafe-coverage-" ++ project

/-- Bug tracker / RegressionRunner `getBugsKey`. -/
def bugsKey (project : String) : String := "qa-cafe-bugs-" ++ project

/-- Session logger storage key. -/
def sessionsKey (project : String) : String := "qa-cafe-sessions-" ++ project

/-- RegressionRunner `getRegressionKey`. -/
def regressionKey (project : String) : String := "qa-cafe-regression-" ++ project

/-- QAAssistant `getMemoryKey`. -/
def memoriesKey (project : String) : String := "qa-cafe-memories-" ++ project

/-- QAAssistant chat history key: a global constant, not project-scoped. -/
def assistantMessagesKey : String := "qa-cafe-assistant-messages"

/-- QAAssistant draft key: a global constant, not project-scoped. -/
def assistantDraftKey : String := "qa-cafe-assistant-draft"

/-- QAAssistant custom system prompt key: a global constant, not
project-scoped. -/
def customPromptKey : String := "qa-cafe-custom-prompt"

/-- The keys touched on behalf of a project by the pipeline pages and the
QA Assistant. -/
def keysUsedFor (p : String) : List String :=
  [testMapperKey p, testPlanKey p, coverageKey p, bugsKey p, sessionsKey p,
   regressionKey p, memoriesKey p, assistantMessagesKey, assistantDraftKey,
   customPromptKey]

/-- The project-scoped subset of `keysUsedFor`. -/
def projectScopedKeys (p : String) : List String :=
  [testMapperKey p, testPlanKey p, coverageKey p, bugsKey p, sessionsKey p,
   regressionKey p, memoriesKey p]

/-- Saving the QA Assistant conversation
(`localStorage.setItem` of the messages key); the key ignores the
project on whose behalf the save happens. -/
def saveAssistantMessages (_project : String) (st : Store) (payload : String) : Store :=
  storeSet st assistantMessagesKey payload

/-- Loading the QA Assistant conversation; the key ignores the project. -/
def loadAssistantMessages (_project : String) (st : Store) : Option String :=
  st assistantMessagesKey

/-! ## JS object access helpers -/

/-- Property access `j.k` on a parsed JSON value: a member lookup on
objects (last occurrence wins, as the engine would), `none` (that is,
`undefined`) on everything else. Access on `null` throws instead and is
handled at each call site. -/
def jsField (j : Json) (k : String) : Option Json :=
  match j with
  | .obj ms => ((ms.reverse).find? (fun kv => kv.1 = k)).map (fun kv => kv.2)
  | _ => none

/-- JS truthiness of a JSON value. -/
def jsTruthy : Json → Bool
  | .null => false
  | .bool b => b
  | .num n => n != 0
  | .str s => s ≠ ""
  | .arr _ => true
  | .obj _ => true

/-- The `x || []` idiom on a possibly-undefined value. -/
def jsOrEmptyArr : Option Json → Json
  | some j => if jsTruthy j then j else .arr []
  | none => .arr []

/-- The `x || {}` idiom followed by `Object.entries`: object members, or
no entries otherwise (a primitive in that position yields no entry that
could carry a `status` member, so the observable result agrees). -/
def jsOrEmptyObj : Option Json → List (String × Json)
  | some (.obj ms) => ms
  | _ => []

/-! ## Response parsing -/

/-- The fallback artifact built by `analyzeProject` when `JSON.parse`
throws: every structured field empty and the raw response as `summary`
(src/core/tools/testMapper.ts lines 59 to 67). -/
def mapperFallback (response : String) : Json :=
  .obj [("flows", .arr []), ("todos", .arr []), ("configIssues", .arr []),
        ("missingDependencies", .arr []), ("summary", .str response)]

/-- The response-parsing step of `analyzeProject`: `JSON.parse` inside
`try`, returning the parsed value as-is on success and the fallback
artifact on failure. Total by construction, as the `catch` leaves no
exception for the caller. -/
def analyzeProjectParse (response : String) : Json :=
  match jsonParse response with
  | some j => j
  | none => mapperFallback response

/-- The regex `\x7b[\s\S]*\x7d` (greedy): the substring from the first
opening brace to the last closing brace after it, when both exist. -/
def extractJsonSpan (s : String) : Option String :=
  match s.data.dropWhile (fun c => c ≠ '{') with
  | [] => none
  | c :: rest =>
    match rest.reverse.dropWhile (fun c2 => c2 ≠ '}') with
    | [] => none
    | tail => some ⟨c :: tail.reverse⟩

/-- Outcome of the Test Case Generator parse step
(TestCaseGenerator.tsx lines 130 to 140): a parsed plan, or the
`Could not parse test plan` error when the regex finds no match, or the
error set by the outer `catch` when `JSON.parse` throws on the match. -/
inductive TcgParse where
  | plan (j : Json)
  | noMatch
  | badJson
deriving Repr

/-- The Test Case Generator response-parsing step. -/
def tcgParseStep (response : String) : TcgParse :=
  match extractJsonSpan response with
  | none => .noMatch
  | some t =>
    match jsonParse t with
    | some j => .plan j
    | none => .badJson

/-! ## The Test Case Generator stage (TestCaseGenerator.tsx) -/

/-- Whether a flow entry survives the context build: `f.steps.join` needs
an object with an array `steps`; anything else throws. -/
def flowOk : Json → Bool
  | .obj ms =>
    (match jsField (.obj ms) "steps" with
     | some (.arr _) => true
     | _ => false)
  | _ => false

/-- Whether a state assumption survives: `a.risk.toUpperCase()` needs an
object with a string `risk`. -/
def assumptionOk : Json → Bool
  | .obj ms =>
    (match jsField (.obj ms) "risk" with
     | some (.str _) => true
     | _ => false)
  | _ => false

/-- Whether an issue survives: `i.severity.toUpperCase()` needs an object
with a string `severity`. -/
def issueOk : Json → Bool
  | .obj ms =>
    (match jsField (.obj ms) "severity" with
     | some (.str _) => true
     | _ => false)
  | _ => false

/-- Whether the context build over the cached Test Mapper artifact
(lines 97 to 121) completes without throwing: the parsed value must be an
object whose `result` member is an object with array `flows`,
`stateAssumptions` and `issues`, each element well-shaped as above. The
produced prompt text itself feeds only the gateway, whose reply is an
input of the model, so its content is not tracked. -/
def contextOk : Json → Bool
  | .obj ms =>
    (match jsField (.obj ms) "result" with
     | some (.obj rs) =>
       (match jsField (.obj rs) "flows" with
        | some (.arr fs) => fs.all flowOk
        | _ => false)
       && (match jsField (.obj rs) "stateAssumptions" with
           | some (.arr as2) => as2.all assumptionOk
           | _ => false)
       && (match jsField (.obj rs) "issues" with
           | some (.arr is2) => is2.all issueOk
           | _ => false)
     | _ => false)
  | _ => false

/-- How a `generateTestCases` run ends when it does not persist a plan:
each constructor is one `setError` site (or the outer `catch`). -/
inductive GenError where
  | noAnalysis
  | contextFailure
  | gatewayFailure
  | parseNoMatch
  | parseBadJson
deriving Repr, DecidableEq

/-- Observable outcome of one `generateTestCases` invocation: whether the
gateway was invoked, the store afterwards, the error state, and the plan
state. No constructor models an uncaught exception: the body sits in
`try/catch/finally`, so none escapes. -/
structure GenOutcome where
  calledGateway : Bool
  store : Store
  error : Option GenError
  plan : Option Json

/-- The reply-parsing tail of `generateTestCases` (lines 130 to 140):
persist the parsed plan wholesale under the test-plan key, or set the
matching error state. -/
def generateFromResponse (p : String) (st : Store) (response : String) : GenOutcome :=
  match tcgParseStep response with
  | .plan newPlan =>
    ⟨true, storeSet st (testPlanKey p) (jsonStringify newPlan), none, some newPlan⟩
  | .noMatch => ⟨true, st, some .parseNoMatch, none⟩
  | .badJson => ⟨true, st, some .parseBadJson, none⟩

/-- `generateTestCases` after the cached artifact decoded (lines 99 to
129): a throwing context build lands in the outer catch, a gateway
rejection likewise, and a reply goes on to the parse step. -/
def generateAfterParse (p : String) (st : Store) (gateway : Except String String)
    (parsed : Json) : GenOutcome :=
  if !contextOk parsed then ⟨false, st, some .contextFailure, none⟩
  else
    match gateway with
    | .error _ => ⟨true, st, some .gatewayFailure, none⟩
    | .ok response => generateFromResponse p st response

/-- `generateTestCases` once a cached artifact was found (line 97):
`JSON.parse(cached)` throwing lands in the outer catch. -/
def generateAfterCache (p : String) (st : Store) (gateway : Except String String)
    (cached : String) : GenOutcome :=
  match jsonParse cached with
  | none => ⟨false, st, some .contextFailure, none⟩
  | some parsed => generateAfterParse p st gateway parsed

/-- `generateTestCases` past its guards (lines 86 to 91): error without
a cached Test Mapper artifact, never touching the gateway. -/
def generateTestCasesRun (p : String) (st : Store)
    (gateway : Except String String) : GenOutcome :=
  match truthyStr (st (testMapperKey p)) with
  | none => ⟨false, st, some .noAnalysis, none⟩
  | some cached => generateAfterCache p st gateway cached

/-- `generateTestCases` (lines 83 to 146), over an abstract gateway
reply: silently returns without a key or project, then runs the staged
body above. -/
def generateTestCases (project : Option String) (hasKey : Bool) (st : Store)
    (gateway : Except String String) : GenOutcome :=
  match project with
  | none => ⟨false, st, none, none⟩
  | some p =>
    if !hasKey then ⟨false, st, none, none⟩
    else generateTestCasesRun p st gateway

/-- Reduction: the missing-artifact branch. -/
theorem run_eq_noAnalysis {p : String} {st : Store} {g : Except String String}
    (h : truthyStr (st (testMapperKey p)) = none) :
    generateTestCasesRun p st g = ⟨false, st, some .noAnalysis, none⟩ := by
  unfold generateTestCasesRun
  rw [h]

/-- Reduction: a cached artifact was found. -/
theorem run_eq_afterCache {p : String} {st : Store} {g : Except String String}
    {cached : String} (h : truthyStr (st (testMapperKey p)) = some cached) :
    generateTestCasesRun p st g = generateAfterCache p st g cached := by
  unfold generateTestCasesRun
  rw [h]

/-- Reduction: the cached artifact decoded. -/
theorem afterCache_eq {p : String} {st : Store} {g : Except String String}
    {cached : String} {parsed : Json} (h : jsonParse cached = some parsed) :
    generateAfterCache p st g cached = generateAfterParse p st g parsed := by
  unfold generateAfterCache
  rw [h]

/-- Reduction: the context build survives and the gateway replied. -/
theorem afterParse_ok {p : String} {st : Store} {response : String}
    {parsed : Json} (h : contextOk parsed = true) :
    generateAfterParse p st (.ok response) parsed
      = generateFromResponse p st response := by
  unfold generateAfterParse
  rw [h]
  rfl

/-- Reduction: the reply parsed into a plan. -/
theorem fromResponse_plan {p : String} {st : Store} {response : String}
    {newPlan : Json} (h : tcgParseStep response = .plan newPlan) :
    generateFromResponse p st response
      = ⟨true, storeSet st (testPlanKey p) (jsonStringify newPlan), none,
          some newPlan⟩ := by
  unfold generateFromResponse
  rw [h]

/-- What the Test Case Generator page renders (lines 198 to 245). -/
inductive TcgRender where
  | noProject
  | needApiKey
  | blocked
  | ready
deriving Repr, DecidableEq

/-- The page's render dispatch: no project, missing API key, the blocked
state pointing at Test Mapper, or the generate controls. -/
def tcgRender (project : Option String) (hasKey : Bool) (st : Store) : TcgRender :=
  match project with
  | none => .noProject
  | some p =>
    if !hasKey then .needApiKey
    else if (truthyStr (st (testMapperKey p))).isNone then .blocked
    else .ready

/-! ## The Regression Runner load effect (RegressionRunner.tsx) -/

/-- Whether a JSON value is `null`. -/
def isNullJ : Json → Bool
  | .null => true
  | _ => false

/-- One coverage entry passing the `status === 'failed'` filter. -/
def entryFailedB : Json → Bool
  | .obj ms =>
    (match jsField (.obj ms) "status" with
     | some (.str s) => s = "failed"
     | _ => false)
  | _ => false

/-- Failed test ids from the coverage artifact (lines 69 to 81): the
whole extraction sits in `try/catch`, so a throw anywhere (bad JSON, a
`null` coverage value, a `null` entry) leaves the list empty. -/
def failedIdsOf (coverageData : Option String) : List String :=
  match truthyStr coverageData with
  | none => []
  | some raw =>
    match jsonParse raw with
    | none => []
    | some .null => []
    | some cov =>
      let sts := jsOrEmptyObj (jsField cov "statuses")
      if sts.any (fun kv => isNullJ kv.2) then []
      else (sts.filter (fun kv => entryFailedB kv.2)).map (fun kv => kv.1)

/-- The `loadedBugs` value after lines 84 to 93: the parsed bug list on
success, empty on absence or parse failure. -/
def bugsListOf (bugsData : Option String) : Json :=
  match truthyStr bugsData with
  | none => .arr []
  | some raw =>
    match jsonParse raw with
    | none => .arr []
    | some j => j

/-- The `setTestCases` value of lines 59 to 67: `parsed.testCases || []`
under `try/catch`, with a decode failure or a `null` parse falling back
to the empty list. -/
def testCasesSetOf (testPlanData : Option String) : Json :=
  match truthyStr testPlanData with
  | none => .arr []
  | some raw =>
    match jsonParse raw with
    | none => .arr []
    | some .null => .arr []
    | some j => jsOrEmptyArr (jsField j "testCases")

/-- How the suite part of the load effect ends when it does not crash:
regression items and runs restored from the saved suite, or the inputs
handed to `buildInitialItems`. -/
inductive RegLoadOutcome where
  | fromSaved (items runs : Json)
  | rebuilt (testCasesArg : Json) (failedIds : List String) (bugs : Json)

/-- Everything the load effect sets when it completes. -/
structure RegLoadState where
  testCasesSet : Json
  bugsSet : Json
  suite : RegLoadOutcome

/-- The `buildInitialItems` call boundary: `tests.filter` and
`bugsList.forEach` throw unless handed arrays, and `t.id` or
`b.severity` throws on a `null` element. -/
def checkBuild (testCasesArg : Option Json) (failedIds : List String) (bugs : Json) :
    Except Unit RegLoadOutcome :=
  match testCasesArg with
  | some (.arr tcs) =>
    if tcs.any isNullJ then .error ()
    else
      match bugs with
      | .arr bs =>
        if bs.any isNullJ then .error ()
        else .ok (.rebuilt (.arr tcs) failedIds (.arr bs))
      | _ => .error ()
  | _ => .error ()

/-- The rebuild path (lines 103 to 107): NOTE the unguarded
`JSON.parse(testPlanData)` in the `catch` and `else` branches; a corrupt
test-plan artifact throws here with no handler around it. -/
def regRebuild (testPlanData : Option String) (failedIds : List String) (bugs : Json) :
    Except Unit RegLoadOutcome :=
  match truthyStr testPlanData with
  | none => checkBuild (some (.arr [])) failedIds bugs
  | some raw =>
    match jsonParse raw with
    | none => .error ()
    | some .null => .error ()
    | some j => checkBuild (jsField j "testCases") failedIds bugs

/-- The whole load effect (lines 56 to 110) for one project: an
`Except.error` is an exception escaping the effect (a crash). The saved
suite restores `saved.items || []` and `saved.runs || []`; a missing or
undecodable regression value rebuilds through the unguarded parse. -/
def regLoad (st : Store) (project : String) : Except Unit RegLoadState :=
  let testPlanData := st (testPlanKey project)
  let testCasesSet := testCasesSetOf testPlanData
  let failedIds := failedIdsOf (st (coverageKey project))
  let bugs := bugsListOf (st (bugsKey project))
  match truthyStr (st (regressionKey project)) with
  | some regRaw =>
    (match jsonParse regRaw with
     | some .null =>
       (regRebuild testPlanData failedIds bugs).map
         (fun o => ⟨testCasesSet, bugs, o⟩)
     | some saved =>
       .ok ⟨testCasesSet, bugs,
            .fromSaved (jsOrEmptyArr (jsField saved "items"))
                       (jsOrEmptyArr (jsField saved "runs"))⟩
     | none =>
       (regRebuild testPlanData failedIds bugs).map
         (fun o => ⟨testCasesSet, bugs, o⟩))
  | none =>
    (regRebuild testPlanData failedIds bugs).map
      (fun o => ⟨testCasesSet, bugs, o⟩)

/-! ## `buildInitialItems` on well-typed inputs (RegressionRunner.tsx) -/

/-- RegressionRunner's `TestCase` interface. -/
structure TestCase where
  id : String
  name : String
  description : String
  steps : List String
  expectedResult : String
  priority : String
  category : String

/-- RegressionRunner's `Bug` interface (severity as its runtime string). -/
structure Bug where
  id : String
  title : String
  severity : String
  stepsToReproduce : String

/-- RegressionRunner's `RegressionItem` interface. -/
structure RegressionItem where
  id : String
  type : String
  referenceId : String
  name : String
  priority : String
  inSuite : Bool
deriving Repr, DecidableEq

/-- The item pushed for a failed test case (lines 116 to 125). -/
def testItem (t : TestCase) : RegressionItem :=
  { id := "test-" ++ t.id, type := "test", referenceId := t.id, name := t.name,
    priority := t.priority, inSuite := true }

/-- The item pushed for a bug (lines 128 to 137). -/
def bugItem (b : Bug) : RegressionItem :=
  { id := "bug-" ++ b.id, type := "bug", referenceId := b.id, name := b.title,
    priority := b.severity,
    inSuite := b.severity == "critical" || b.severity == "high" }

/-- `buildInitialItems` (lines 112 to 140): failed tests first, then all
bugs. -/
def buildInitialItems (tests : List TestCase) (failedIds : List String)
    (bugsList : List Bug) : List RegressionItem :=
  (tests.filter (fun t => failedIds.contains t.id)).map testItem
    ++ bugsList.map bugItem

/-! ## The Coverage Tracker `updateStatus` (src/unnamed/part_005) -/

/-- The coverage status union. -/
inductive CStatus where
  | pending
  | passed
  | failed
  | blocked
  | skipped
deriving Repr, DecidableEq

/-- The `TestCaseStatus` interface; optional members are `Option`. -/
structure TestCaseStatus where
  id : String
  status : CStatus
  notes : Option String
  timestamp : Option Nat
deriving Repr, DecidableEq

/-- The `CoverageData` interface: the `statuses` record as a map. -/
structure CoverageData where
  statuses : String → Option TestCaseStatus
  lastUpdated : Nat

/-- `updateStatus` (lines 80 to 93): a spread update of one entry that
keeps the previous note (`prev.statuses[testId]?.notes`) and stamps the
time. -/
def updateStatus (prev : CoverageData) (testId : String) (status : CStatus)
    (now : Nat) : CoverageData :=
  { statuses := fun k =>
      if k = testId then
        some { id := testId, status := status,
               notes := (prev.statuses testId).bind (fun e => e.notes),
               timestamp := some now }
      else prev.statuses k,
    lastUpdated := now }

/-! ## The gateway response extractors -/

/-- One block of the upstream reply's `content` array. -/
structure ContentBlock where
  type : String
  text : Option String
deriving Repr

/-- The `call-claude` handler's extraction (electron/main.ts lines 217
to 220): the first text-typed block's text, with `?.text || ''` turning
a missing block, a missing text member, or empty text into the empty
string — it never fails. -/
def callClaudeExtract (content : List ContentBlock) : String :=
  match content.find? (fun c => c.type == "text") with
  | some c => c.text.getD ""
  | none => ""

/-- How `analyzeCode` in claude.ts ends (src/unnamed/part_000 lines 30
to 34). -/
inductive AnalyzeOutcome where
  | ok (text : Option String)
  | unexpectedFormat
  | crash
deriving Repr

/-- `analyzeCode`'s extraction: it looks at `content[0]` only — text
gives its `text`, any other type throws `Unexpected response format`,
and an empty array crashes on the property access itself. -/
def analyzeCodeExtract : List ContentBlock → AnalyzeOutcome
  | [] => .crash
  | c :: _ => if c.type = "text" then .ok c.text else .unexpectedFormat

/-! ## Shared concrete fixtures for the scenario instances -/

/-- A cached Test Mapper artifact, as TestMapper.tsx `saveToCache` would
persist it (the happy-path seed of the spec's scenarios). -/
def qaMapperCacheLit : String :=
  "\x7b\"result\":\x7b\"summary\":\"ok\",\"flows\":[],\"stateAssumptions\":[],\"issues\":[]\x7d,\"filesScanned\":3,\"timestamp\":1700000000000\x7d"

/-- The value `qaMapperCacheLit` decodes to. -/
def qaMapperEnvelope : Json :=
  .obj [("result", .obj [("summary", .str "ok"), ("flows", .arr []),
          ("stateAssumptions", .arr []), ("issues", .arr [])]),
        ("filesScanned", .num 3), ("timestamp", .num 1700000000000)]

/-- A previously cached test plan holding two test cases. -/
def qaOldPlanLit : String :=
  "\x7b\"testCases\":[\x7b\"id\":\"TC1\"\x7d,\x7b\"id\":\"TC2\"\x7d],\"coverage\":\"old\",\"notes\":\"old\"\x7d"

/-- A store seeded with the Test Mapper artifact and the two-case plan. -/
def qaSeededStore : Store :=
  storeSet (storeSet emptyStore (testMapperKey "demo") qaMapperCacheLit)
    (testPlanKey "demo") qaOldPlanLit

/-- A model reply whose JSON span holds one different test case. -/
def qaRegenResponse : String :=
  "Here you go:\n\x7b\"testCases\":[\x7b\"id\":\"TC9\"\x7d],\"coverage\":\"c\",\"notes\":\"n\"\x7d"

/-- The plan `qaRegenResponse` decodes to. -/
def qaNewPlan : Json :=
  .obj [("testCases", .arr [.obj [("id", .str "TC9")]]),
        ("coverage", .str "c"), ("notes", .str "n")]

/-- A reply with no JSON object anywhere. -/
def qaProseReply : String := "I could not find any JSON in that reply."

/-- A store whose test-plan artifact is corrupt JSON and whose other keys
are absent. -/
def corruptTestPlanStore : Store :=
  storeSet emptyStore (testPlanKey "demo") "\x7boops"

/-! ## Helper lemmas for the claims -/

/-- Whether the first list is an initial run of the second. -/
def listLeads : List Char → List Char → Bool
  | [], _ => true
  | _ :: _, [] => false
  | a :: t, b :: u => a = b && listLeads t u

theorem leads_total (a : List Char) : ∀ (b x y : List Char),
    a ++ x = b ++ y → listLeads a b = true ∨ listLeads b a = true := by
  induction a with
  | nil => intro b x y _; left; rfl
  | cons c t ih =>
    intro b x y h
    cases b with
    | nil => right; rfl
    | cons d u =>
      rw [List.cons_append, List.cons_append] at h
      injection h with h1 h2
      rcases ih u x y h2 with hl | hr
      · left; simp [listLeads, h1, hl]
      · right; simp [listLeads, h1, hr]

/-- Two keys with incomparable constant heads never collide, whatever the
projects appended to them. -/
theorem key_ne_of_pre (pre1 pre2 p1 p2 : String)
    (h1 : listLeads pre1.data pre2.data = false)
    (h2 : listLeads pre2.data pre1.data = false) :
    pre1 ++ p1 ≠ pre2 ++ p2 := by
  intro h
  have hd := congrArg String.data h
  rw [String.data_append, String.data_append] at hd
  rcases leads_total _ _ _ _ hd with hl | hr
  · rw [h1] at hl; exact absurd hl (by simp)
  · rw [h2] at hr; exact absurd hr (by simp)

/-- A constant-headed key determines the project appended to it. -/
theorem key_inj_of_pre (pre p1 p2 : String) (h : pre ++ p1 = pre ++ p2) : p1 = p2 := by
  have hd := congrArg String.data h
  rw [String.data_append, String.data_append] at hd
  have h2 := List.append_cancel_left hd
  cases p1
  cases p2
  exact congrArg String.mk h2

/-- `find?` returns the first text-typed block of a content array. -/
theorem find_first_text (pre : List ContentBlock) (c : ContentBlock)
    (post : List ContentBlock) (hc : c.type = "text")
    (hpre : ∀ x ∈ pre, x.type ≠ "text") :
    (pre ++ c :: post).find? (fun b => b.type == "text") = some c := by
  induction pre with
  | nil =>
    have : (c.type == "text") = true := by simp [hc]
    simp [List.find?_cons, this]
  | cons x xs ih =>
    have hx : (x.type == "text") = false := by
      simpa using hpre x (by simp)
    rw [List.cons_append, List.find?_cons, hx]
    exact ih (fun y hy => hpre y (by simp [hy]))

/-- `find?` finds nothing in a content array without a text-typed block. -/
theorem find_no_text (content : List ContentBlock)
    (h : ∀ x ∈ content, x.type ≠ "text") :
    content.find? (fun b => b.type == "text") = none := by
  induction content with
  | nil => rfl
  | cons x xs ih =>
    have hx : (x.type == "text") = false := by simpa using h x (by simp)
    rw [List.find?_cons, hx]
    exact ih (fun y hy => h y (by simp [hy]))

/-- A run that parses no plan writes nothing and sets no plan. -/
theorem generate_no_plan_no_write (pr : Option String) (hk : Bool) (st : Store)
    (response : String) (h2 : ∀ j, tcgParseStep response ≠ .plan j) :
    (generateTestCases pr hk st (.ok response)).store = st
    ∧ (generateTestCases pr hk st (.ok response)).plan = none := by
  cases pr with
  | none => exact ⟨rfl, rfl⟩
  | some p =>
    cases hk with
    | false => exact ⟨rfl, rfl⟩
    | true =>
      show (generateTestCasesRun p st (.ok response)).store = st
        ∧ (generateTestCasesRun p st (.ok response)).plan = none
      cases ht : truthyStr (st (testMapperKey p)) with
      | none => rw [run_eq_noAnalysis ht]; exact ⟨rfl, rfl⟩
      | some cached =>
        rw [run_eq_afterCache ht]
        cases hj : jsonParse cached with
        | none => unfold generateAfterCache; rw [hj]; exact ⟨rfl, rfl⟩
        | some parsed =>
          rw [afterCache_eq hj]
          cases hc : contextOk parsed with
          | false => unfold generateAfterParse; rw [hc]; exact ⟨rfl, rfl⟩
          | true =>
            rw [afterParse_ok hc]
            cases hp : tcgParseStep response with
            | plan j => exact absurd hp (h2 j)
            | noMatch => unfold generateFromResponse; rw [hp]; exact ⟨rfl, rfl⟩
            | badJson => unfold generateFromResponse; rw [hp]; exact ⟨rfl, rfl⟩

/-- One-step reduction of `tcgParseStep` when the span is found. -/
theorem tcgParseStep_eq_of_span {response t : String}
    (he : extractJsonSpan response = some t) :
    tcgParseStep response
      = (match jsonParse t with
         | some j => TcgParse.plan j
         | none => TcgParse.badJson) := by
  unfold tcgParseStep
  rw [he]

/-- One-step reduction of `tcgParseStep` when no span is found. -/
theorem tcgParseStep_eq_of_nospan {response : String}
    (he : extractJsonSpan response = none) : tcgParseStep response = .noMatch := by
  unfold tcgParseStep
  rw [he]

/-! ## The claims -/

/-- Claim C1: response parsing never throws to its caller. Both parse
steps are total functions into handled outcomes — exceptions are
explicit in the embedding, and neither function has an unhandled-throw
constructor. `analyzeProject` returns the decoded value or the degraded
fallback; the Test Case Generator step returns a parsed plan exactly
when the brace span decodes, and otherwise one of the two error states
its page handles (`setError`, via the regex miss or the outer catch). -/
theorem parse_never_throws (response : String) :
    ((∃ j, jsonParse response = some j ∧ analyzeProjectParse response = j)
      ∨ (jsonParse response = none
          ∧ analyzeProjectParse response = mapperFallback response))
    ∧ (∀ j, tcgParseStep response = .plan j ↔
        ∃ t, extractJsonSpan response = some t ∧ jsonParse t = some j)
    ∧ ((∃ j, tcgParseStep response = .plan j)
        ∨ tcgParseStep response = .noMatch ∨ tcgParseStep response = .badJson) := by
  refine ⟨?_, ?_, ?_⟩
  · cases hp : jsonParse response with
    | none => exact .inr ⟨rfl, by unfold analyzeProjectParse; rw [hp]⟩
    | some j => exact .inl ⟨j, rfl, by unfold analyzeProjectParse; rw [hp]⟩
  · intro j
    constructor
    · intro h
      cases he : extractJsonSpan response with
      | none =>
        rw [tcgParseStep_eq_of_nospan he] at h
        exact TcgParse.noConfusion h
      | some t =>
        rw [tcgParseStep_eq_of_span he] at h
        cases hj : jsonParse t with
        | none =>
          rw [hj] at h
          exact TcgParse.noConfusion h
        | some j2 =>
          rw [hj] at h
          injection h with hh
          subst hh
          exact ⟨t, rfl, hj⟩
    · rintro ⟨t, he, hj⟩
      rw [tcgParseStep_eq_of_span he, hj]
  · cases he : extractJsonSpan response with
    | none => exact .inr (.inl (tcgParseStep_eq_of_nospan he))
    | some t =>
      cases hj : jsonParse t with
      | none =>
        refine .inr (.inr ?_)
        rw [tcgParseStep_eq_of_span he, hj]
      | some j =>
        refine .inl ⟨j, ?_⟩
        rw [tcgParseStep_eq_of_span he, hj]

/-- Claim C2, counterexample: a prose reply with no JSON object does not
give the Test Case Generator a degraded artifact with the raw text as
notes — the page leaves the cached plan untouched (still the old
two-case plan) and sets the `Could not parse` error instead. -/
theorem parse_fallback_counterexample :
    tcgParseStep qaProseReply = .noMatch
    ∧ (generateTestCases (some "demo") true qaSeededStore
        (.ok qaProseReply)).store (testPlanKey "demo") = some qaOldPlanLit
    ∧ (generateTestCases (some "demo") true qaSeededStore
        (.ok qaProseReply)).error = some .parseNoMatch
    ∧ (generateTestCases (some "demo") true qaSeededStore
        (.ok qaProseReply)).plan = none :=
  ⟨rfl, rfl, rfl, rfl⟩

/-- Claim C2 as amended: on a reply from which its own decode step gets
no JSON value, `analyzeProject` falls back to the degraded artifact with
every structured field empty and the raw text as `summary`; the Test
Case Generator, by contrast, produces no artifact at all on its decode
failure — it writes nothing and surfaces an error state. -/
theorem parse_fallback_amended (response : String) (p : String) (st : Store)
    (h1 : jsonParse response = none)
    (h2 : ∀ j, tcgParseStep response ≠ .plan j) :
    analyzeProjectParse response
      = .obj [("flows", .arr []), ("todos", .arr []), ("configIssues", .arr []),
              ("missingDependencies", .arr []), ("summary", .str response)]
    ∧ (generateTestCases (some p) true st (.ok response)).store = st
    ∧ (generateTestCases (some p) true st (.ok response)).plan = none := by
  have hg := generate_no_plan_no_write (some p) true st response h2
  refine ⟨?_, hg.1, hg.2⟩
  unfold analyzeProjectParse
  rw [h1]
  rfl

/-- Claim C2 amended, witness at the prose reply. -/
theorem parse_fallback_amended_witness :
    analyzeProjectParse qaProseReply
      = .obj [("flows", .arr []), ("todos", .arr []), ("configIssues", .arr []),
              ("missingDependencies", .arr []), ("summary", .str qaProseReply)]
    ∧ (generateTestCases (some "demo") true qaSeededStore (.ok qaProseReply)).store
        = qaSeededStore
    ∧ (generateTestCases (some "demo") true qaSeededStore (.ok qaProseReply)).plan
        = none :=
  parse_fallback_amended qaProseReply "demo" qaSeededStore rfl
    (fun _ hj => TcgParse.noConfusion hj)

/-- Claim C3: the claim (decode failure on a cached read behaves as an
absent key, never a crash) is what the rest of the code and the design
intend, but the Regression Runner load effect re-parses the test-plan
artifact with no guard when the regression key is absent or corrupt
(RegressionRunner.tsx line 104 and line 107): with a corrupt test-plan
value the effect throws an uncaught exception. This theorem evaluates
the embedded effect at that failing input. -/
theorem regression_load_crash :
    regLoad corruptTestPlanStore "demo" = .error ()
    ∧ jsonParse "\x7boops" = none
    ∧ corruptTestPlanStore (regressionKey "demo") = none :=
  ⟨rfl, rfl, rfl⟩

/-- Claim C4: with no Test Mapper artifact under the required key, the
Test Case Generator renders its blocked state, and a generate call
returns after setting the `No Test Mapper analysis found` error without
ever invoking the gateway. -/
theorem stage_gating_blocked (p : String) (st : Store) (g : Except String String)
    (h : st (testMapperKey p) = none) :
    tcgRender (some p) true st = .blocked
    ∧ (generateTestCases (some p) true st g).calledGateway = false
    ∧ (generateTestCases (some p) true st g).error = some .noAnalysis := by
  have ht : truthyStr (st (testMapperKey p)) = none := by
    rw [h]
    rfl
  have hgen : generateTestCases (some p) true st g
      = ⟨false, st, some .noAnalysis, none⟩ := by
    show generateTestCasesRun p st g = _
    exact run_eq_noAnalysis ht
  refine ⟨?_, by rw [hgen], by rw [hgen]⟩
  show (if (truthyStr (st (testMapperKey p))).isNone = true then TcgRender.blocked
        else TcgRender.ready) = TcgRender.blocked
  rw [ht]
  rfl

/-- Claim C4, witness on the empty store. -/
theorem stage_gating_blocked_witness :
    tcgRender (some "demo") true emptyStore = .blocked
    ∧ (generateTestCases (some "demo") true emptyStore
        (.ok "anything")).calledGateway = false
    ∧ (generateTestCases (some "demo") true emptyStore
        (.ok "anything")).error = some .noAnalysis :=
  stage_gating_blocked "demo" emptyStore (.ok "anything") rfl

/-- Claim C5, counterexample: on a content array with no text-typed
block the `call-claude` handler returns the empty string — a value, not
an unexpected-format failure; and `analyzeCode` reports the
unexpected-format failure even though a text-typed block exists, because
it inspects only the first block. -/
theorem gateway_extract_counterexample :
    (([⟨"tool_use", none⟩] : List ContentBlock).all
        (fun c => c.type != "text") = true)
    ∧ callClaudeExtract [⟨"tool_use", none⟩] = ""
    ∧ (([⟨"tool_use", none⟩, ⟨"text", some "hello"⟩] : List ContentBlock).any
        (fun c => c.type == "text") = true)
    ∧ analyzeCodeExtract [⟨"tool_use", none⟩, ⟨"text", some "hello"⟩]
        = .unexpectedFormat :=
  ⟨rfl, rfl, rfl, rfl⟩

/-- Claim C5 as amended: the `call-claude` handler returns the first
text-typed block's text when one exists and the empty string — not an
error — when none does; `analyzeCode` decides on the first block alone:
text gives its text, anything else fails with unexpected-format even
when a later text-typed block exists, and an empty content array
crashes. -/
theorem gateway_extract_amended :
    (∀ (pre post : List ContentBlock) (c : ContentBlock),
      c.type = "text" → (∀ x ∈ pre, x.type ≠ "text") →
      callClaudeExtract (pre ++ c :: post) = c.text.getD ""
      ∧ (pre = [] → analyzeCodeExtract (pre ++ c :: post) = .ok c.text)
      ∧ (∀ b t2, pre = b :: t2 →
          analyzeCodeExtract (pre ++ c :: post) = .unexpectedFormat))
    ∧ (∀ content : List ContentBlock, (∀ x ∈ content, x.type ≠ "text") →
      callClaudeExtract content = ""
      ∧ (content = [] → analyzeCodeExtract content = .crash)
      ∧ (∀ b t2, content = b :: t2 →
          analyzeCodeExtract content = .unexpectedFormat)) := by
  constructor
  · intro pre post c hc hpre
    refine ⟨?_, ?_, ?_⟩
    · unfold callClaudeExtract
      rw [find_first_text pre c post hc hpre]
    · intro hnil
      subst hnil
      show (if c.type = "text" then AnalyzeOutcome.ok c.text
            else AnalyzeOutcome.unexpectedFormat) = AnalyzeOutcome.ok c.text
      rw [if_pos hc]
    · intro b t2 hcons
      subst hcons
      have hb : b.type ≠ "text" := hpre b (by simp)
      show (if b.type = "text" then AnalyzeOutcome.ok b.text
            else AnalyzeOutcome.unexpectedFormat) = AnalyzeOutcome.unexpectedFormat
      rw [if_neg hb]
  · intro content h
    refine ⟨?_, ?_, ?_⟩
    · unfold callClaudeExtract
      rw [find_no_text content h]
    · intro hnil
      subst hnil
      rfl
    · intro b t2 hcons
      subst hcons
      have hb : b.type ≠ "text" := h b (by simp)
      show (if b.type = "text" then AnalyzeOutcome.ok b.text
            else AnalyzeOutcome.unexpectedFormat) = AnalyzeOutcome.unexpectedFormat
      rw [if_neg hb]

/-- Claim C5 amended, witness: the first text block in second position,
and a content array with no text block at all. -/
theorem gateway_extract_amended_witness :
    callClaudeExtract
        [⟨"tool_use", none⟩, ⟨"text", some "hi"⟩, ⟨"text", some "later"⟩]
      = (some "hi" : Option String).getD ""
    ∧ analyzeCodeExtract
        [⟨"tool_use", none⟩, ⟨"text", some "hi"⟩, ⟨"text", some "later"⟩]
      = .unexpectedFormat
    ∧ callClaudeExtract [⟨"tool_use", none⟩] = "" :=
  have h1 := gateway_extract_amended.1 [⟨"tool_use", none⟩]
    [⟨"text", some "later"⟩] ⟨"text", some "hi"⟩ rfl (by decide)
  have h2 := gateway_extract_amended.2 [⟨"tool_use", none⟩] (by decide)
  ⟨h1.1, h1.2.2 ⟨"tool_use", none⟩ [] rfl, h2.1⟩

/-- Claim C6: a successful regenerate stores exactly the serialization
of the newly parsed plan under the test-plan key — whatever was cached
before is replaced wholesale, and decoding the stored artifact gives
back precisely the new plan. -/
theorem regenerate_overwrites (p : String) (st : Store) (cached : String)
    (parsed newPlan : Json) (response : String)
    (h1 : truthyStr (st (testMapperKey p)) = some cached)
    (h2 : jsonParse cached = some parsed)
    (h3 : contextOk parsed = true)
    (h4 : tcgParseStep response = .plan newPlan) :
    (generateTestCases (some p) true st (.ok response)).store (testPlanKey p)
      = some (jsonStringify newPlan)
    ∧ cacheGet (generateTestCases (some p) true st (.ok response)).store
        (testPlanKey p) = some newPlan
    ∧ (generateTestCases (some p) true st (.ok response)).plan = some newPlan := by
  have hgen : generateTestCases (some p) true st (.ok response)
      = ⟨true, storeSet st (testPlanKey p) (jsonStringify newPlan), none,
          some newPlan⟩ := by
    show generateTestCasesRun p st (.ok response) = _
    rw [run_eq_afterCache h1, afterCache_eq h2, afterParse_ok h3,
        fromResponse_plan h4]
  rw [hgen]
  refine ⟨by simp [storeSet], ?_, rfl⟩
  show (storeSet st (testPlanKey p) (jsonStringify newPlan) (testPlanKey p)).bind
      jsonParse = some newPlan
  simp [storeSet, jsonParse_stringify]

/-- Claim C6, witness: the seeded two-case plan is replaced by the
one-case plan decoded from the reply. -/
theorem regenerate_overwrites_witness :
    (generateTestCases (some "demo") true qaSeededStore
        (.ok qaRegenResponse)).store (testPlanKey "demo")
      = some (jsonStringify qaNewPlan)
    ∧ cacheGet (generateTestCases (some "demo") true qaSeededStore
        (.ok qaRegenResponse)).store (testPlanKey "demo") = some qaNewPlan
    ∧ (generateTestCases (some "demo") true qaSeededStore
        (.ok qaRegenResponse)).plan = some qaNewPlan :=
  regenerate_overwrites "demo" qaSeededStore qaMapperCacheLit qaMapperEnvelope
    qaNewPlan qaRegenResponse rfl rfl rfl rfl

/-- Claim C7: the initial regression suite has one item per failed test
case, each with `inSuite = true`, then one item per bug, with
`inSuite` true exactly for critical or high severity. -/
theorem initial_suite_items (tests : List TestCase) (failedIds : List String)
    (bugsList : List Bug) :
    (buildInitialItems tests failedIds bugsList).length
      = (tests.filter (fun t => failedIds.contains t.id)).length + bugsList.length
    ∧ (∀ it, it ∈ buildInitialItems tests failedIds bugsList ↔
        ((∃ t, t ∈ tests ∧ failedIds.contains t.id ∧ it = testItem t)
          ∨ ∃ b, b ∈ bugsList ∧ it = bugItem b))
    ∧ (∀ t, (testItem t).inSuite = true)
    ∧ (∀ b, (bugItem b).inSuite
        = (b.severity == "critical" || b.severity == "high")) := by
  refine ⟨by simp [buildInitialItems], ?_, fun t => rfl, fun b => rfl⟩
  intro it
  simp only [buildInitialItems, List.mem_append, List.mem_map, List.mem_filter]
  constructor
  · rintro (⟨t, ⟨ht, hf⟩, rfl⟩ | ⟨b, hb, rfl⟩)
    · exact .inl ⟨t, ht, hf, rfl⟩
    · exact .inr ⟨b, hb, rfl⟩
  · rintro (⟨t, ht, hf, rfl⟩ | ⟨b, hb, rfl⟩)
    · exact .inl ⟨t, ⟨ht, hf⟩, rfl⟩
    · exact .inr ⟨b, hb, rfl⟩

/-- Claim C8: reading a key right after writing a JSON value to it
(`JSON.stringify` on write, `JSON.parse` on read, as TestMapper.tsx
`saveToCache` and its load effect do) returns a value deep-equal to the
one written, for every store, key and value of the model. -/
theorem store_set_get_roundtrip (st : Store) (k : String) (v : Json) :
    cacheGet (cacheSet st k v) k = some v := by
  unfold cacheGet cacheSet storeSet
  simp [jsonParse_stringify]

/-- Claim C9, counterexample: the chat-message-history key is one global
constant, so two distinct projects share it — a conversation saved while
project `alpha` is open is what a load on behalf of project `beta`
returns. -/
theorem key_namespace_counterexample :
    ("alpha" : String) ≠ "beta"
    ∧ assistantMessagesKey ∈ keysUsedFor "alpha"
    ∧ assistantMessagesKey ∈ keysUsedFor "beta"
    ∧ loadAssistantMessages "beta"
        (saveAssistantMessages "alpha" emptyStore "payload") = some "payload" :=
  ⟨by decide, by simp [keysUsedFor], by simp [keysUsedFor], rfl⟩

/-- Claim C9 as amended: the stage-artifact keys (analysis cache, test
plan, coverage, bugs, sessions, regression suite, chat memory) are fully
project-qualified — across two distinct projects no two of them ever
coincide — but the chat-message-history, chat-draft and custom-prompt
keys are global constants shared by every project. -/
theorem key_namespace_amended (p1 p2 : String) (hne : p1 ≠ p2) :
    (∀ k1 ∈ projectScopedKeys p1, ∀ k2 ∈ projectScopedKeys p2, k1 ≠ k2)
    ∧ (∀ (st : Store) (v : String),
        saveAssistantMessages p1 st v = saveAssistantMessages p2 st v)
    ∧ assistantMessagesKey ∈ keysUsedFor p1
    ∧ assistantDraftKey ∈ keysUsedFor p1
    ∧ customPromptKey ∈ keysUsedFor p1 := by
  refine ⟨?_, fun st v => rfl, by simp [keysUsedFor], by simp [keysUsedFor],
    by simp [keysUsedFor]⟩
  intro k1 hk1 k2 hk2
  simp only [projectScopedKeys, List.mem_cons, List.not_mem_nil, or_false] at hk1 hk2
  rcases hk1 with rfl | rfl | rfl | rfl | rfl | rfl | rfl <;>
    rcases hk2 with rfl | rfl | rfl | rfl | rfl | rfl | rfl <;>
    first
      | exact fun h => hne (key_inj_of_pre _ _ _ h)
      | exact key_ne_of_pre _ _ _ _ (by decide) (by decide)

/-- Claim C9 amended, witness at the projects `alpha` and `beta`. -/
theorem key_namespace_amended_witness :
    testMapperKey "alpha" ≠ testMapperKey "beta"
    ∧ saveAssistantMessages "alpha" emptyStore "m"
        = saveAssistantMessages "beta" emptyStore "m" :=
  have h := key_namespace_amended "alpha" "beta" (by decide)
  ⟨h.1 _ (by simp [projectScopedKeys]) _ (by simp [projectScopedKeys]),
    h.2.1 emptyStore "m"⟩

/-- Claim C10: `updateStatus` rewrites only the entry of the given test
id — new status, preserved note, fresh timestamp — and leaves every
other id's entry untouched. -/
theorem updateStatus_frame (prev : CoverageData) (testId : String)
    (status : CStatus) (now : Nat) (other : String) (hother : other ≠ testId) :
    (updateStatus prev testId status now).statuses testId
      = some { id := testId, status := status,
               notes := (prev.statuses testId).bind (fun e => e.notes),
               timestamp := some now }
    ∧ (updateStatus prev testId status now).statuses other = prev.statuses other
    ∧ (updateStatus prev testId status now).lastUpdated = now := by
  refine ⟨by simp [updateStatus], ?_, rfl⟩
  simp [updateStatus, hother]

/-- A small coverage state for the C10 witness. -/
def qaCoverageFixture : CoverageData :=
  { statuses := fun k =>
      if k = "TC1" then
        some { id := "TC1", status := .pending, notes := some "flaky on retina",
               timestamp := some 5 }
      else if k = "TC2" then
        some { id := "TC2", status := .passed, notes := none, timestamp := some 6 }
      else none,
    lastUpdated := 6 }

/-- Claim C10, witness: failing `TC1` keeps its note and leaves `TC2`
alone. -/
theorem updateStatus_frame_witness :
    (updateStatus qaCoverageFixture "TC1" .failed 7).statuses "TC1"
      = some { id := "TC1", status := .failed, notes := some "flaky on retina",
               timestamp := some 7 }
    ∧ (updateStatus qaCoverageFixture "TC1" .failed 7).statuses "TC2"
        = qaCoverageFixture.statuses "TC2"
    ∧ (updateStatus qaCoverageFixture "TC1" .failed 7).lastUpdated = 7 :=
  updateStatus_frame qaCoverageFixture "TC1" CStatus.failed 7 "TC2" (by decide)

end QaCafe
